import Mathlib

/-!
Verification of the natural-language specification of the neural-network
classifier of this repository.

The classifier implementation itself is not among the provided source
files; only its test suite
(`test/algorithms/classifiers/test_neural_network_classifier.py`) is.
The data model and operations below are therefore modelled from the
spec (`spec.md`, sections 3, 4.1-4.6, 7), with the test file taken as
the authority wherever it determines observable behaviour (notably the
argument list the classifier passes to a user callback).

All numerics are modelled over `ℚ`; the spec's floating tolerance
`1e-5` becomes the exact rational `1/100000`.
-/

namespace NNC

/-- A raw label value: a scalar number or a categorical string.
Modelled from the spec: §4.1 label containers hold scalars or
"arbitrary hashable labels (strings, ints)". -/
inductive LabelVal where
  | num (q : ℚ)
  | str (s : String)
deriving DecidableEq

/-- A raw label container handed to `fit`.  Modelled from the spec:
§4.1 "raw label container (rank-1 array of scalars, rank-2 array of
already-one-hot rows, or a sparse row matrix of either)"; sparse
containers are handled separately via `denseMat`. -/
inductive Labels where
  | scalars (qs : List ℚ)
  | rows (ls : List (List ℚ))
  | cats (ss : List String)
deriving DecidableEq

/-- Number of samples a label container describes. -/
def labelCount : Labels → Nat
  | .scalars qs => qs.length
  | .rows ls => ls.length
  | .cats ss => ss.length

/-- Whether the container is a rank-2 (pre-encoded one-hot) array. -/
def Labels.isRows : Labels → Bool
  | .rows _ => true
  | _ => false

/-- All label values occurring in a container (duplicates included). -/
def labelList : Labels → List LabelVal
  | .scalars qs => qs.map .num
  | .rows ls => ls.flatten.map .num
  | .cats ss => ss.map .str

/-- Byte-wise lexicographic strict order on character lists, used to
sort categorical string labels deterministically. -/
def strLtB : List Char → List Char → Bool
  | [], [] => false
  | [], _ :: _ => true
  | _ :: _, [] => false
  | a :: as, b :: bs =>
      if a.toNat < b.toNat then true
      else if b.toNat < a.toNat then false
      else strLtB as bs

/-- Strict order on label values (numbers before strings; numbers by
`ℚ` order, strings lexicographically).  Modelled from the spec: §4.1
rule 3 "lexicographically-sorted-unique mapping". -/
def lvLt : LabelVal → LabelVal → Bool
  | .num a, .num b => decide (a < b)
  | .num _, .str _ => true
  | .str _, .num _ => false
  | .str a, .str b => strLtB a.data b.data

/-- Insert a value into a sorted duplicate-free list, keeping it
sorted and duplicate-free. -/
def insertVal (v : LabelVal) : List LabelVal → List LabelVal
  | [] => [v]
  | w :: ws =>
      if v = w then w :: ws
      else if lvLt v w then v :: w :: ws
      else w :: insertVal v ws

/-- Sorted list of the distinct values of a list. -/
def sortedUnique (l : List LabelVal) : List LabelVal :=
  l.foldr insertVal []

/-- The distinct label values of a container, sorted. -/
def distinctVals (y : Labels) : List LabelVal :=
  sortedUnique (labelList y)

/-- Error taxonomy.  Modelled from the spec: §7 "Configuration error /
Validation error / State error / Optimizer failure". -/
inductive MLError where
  | validation (msg : String)
  | configuration (msg : String)
  | state (msg : String)
  | optimizerFailure (msg : String)
deriving DecidableEq

/-- Label Encoding Policy.  Modelled from the spec: §3 "one of three
variants, chosen at fit-time from label shape/dtype": `binary` keeps
the two observed values (sorted) for inverse use; `oneHotPre` records
the column count of pre-encoded one-hot rows; `catOneHot` keeps the
sorted distinct values, index `i` standing for the `i`-th value
(the spec's Categorical-Index treated internally as One-Hot). -/
inductive Policy where
  | binary (lo hi : LabelVal)
  | oneHotPre (k : Nat)
  | catOneHot (vals : List LabelVal)
deriving DecidableEq

/-- Whether a policy is the Binary variant. -/
def Policy.isBinary : Policy → Bool
  | .binary _ _ => true
  | _ => false

/-- Class count fixed by a policy (spec §3: "`num_classes` is fixed
once determined from training data"). -/
def Policy.numClasses : Policy → Nat
  | .binary _ _ => 2
  | .oneHotPre k => k
  | .catOneHot vs => vs.length

/-- Floating tolerance of the spec (`1e-5`), exact over `ℚ`. -/
def tol : ℚ := 1 / 100000

/-- Label Encoder decision procedure.  Modelled from the spec: §4.1,
evaluated once per `fit` call:
1. rank-2 labels with more than one column and every row summing to 1
   within tolerance are pre-encoded One-Hot (`num_classes` = column
   count, which must agree with the oracle's output dimensionality);
   malformed rank-2 labels are a validation error (§4.1 error
   conditions and the §9 note on rows not summing to 1);
2. otherwise exactly two distinct values select Binary — unless the
   caller-level flag forces one-hot encoding (§4.1 rule 3), in which
   case the two sorted values are one-hot encoded and the oracle
   dimensionality must be 2;
3. otherwise more than two distinct values select Categorical-Index,
   internally One-Hot (§3); fitting it against an oracle of output
   dimensionality 1 is the §3 invariant violation (validation error),
   and any other disagreement with the derived class count is the §7
   configuration error; fewer than two distinct values are rejected
   (§4.1 "a classifier needs ≥2 classes"). -/
def encodeLabels (y : Labels) (outDim : Nat) (oneHotFlag : Bool) :
    Except MLError Policy :=
  match y with
  | .rows ls =>
      if ls.isEmpty then .error (.validation "empty label container")
      else
        let cols := (ls.headD []).length
        if cols ≤ 1 then .error (.validation "malformed one-hot labels")
        else if ¬ (ls.all fun r => r.length = cols) then
          .error (.validation "malformed one-hot labels")
        else if ¬ (ls.all fun r => decide (|r.sum - 1| ≤ tol)) then
          .error (.validation "malformed one-hot rows")
        else if cols ≠ outDim then
          .error (.validation "label and oracle output shape incompatible")
        else .ok (.oneHotPre cols)
  | _ =>
      match distinctVals y with
      | [] => .error (.validation "fewer than two distinct classes")
      | [_] => .error (.validation "fewer than two distinct classes")
      | [a, b] =>
          if oneHotFlag then
            if outDim = 2 then .ok (.catOneHot [a, b])
            else .error (.configuration "one-hot oracle dimensionality mismatch")
          else .ok (.binary a b)
      | vs =>
          if outDim = 1 then
            .error (.validation "multiclass data against binary-only oracle")
          else if outDim ≠ vs.length then
            .error (.configuration "one-hot oracle dimensionality mismatch")
          else .ok (.catOneHot vs)

/-- Model Oracle.  Modelled from the spec: §3 and §6 — "a
differentiable function taking an input vector and a weight vector,
returning an output vector (forward) and a Jacobian with respect to
weights (backward); exposes `num_inputs`, `num_weights`,
`output_shape`/`output_dimensionality`".  `backward` rows are indexed
by output component, columns by weight. -/
structure Oracle where
  num_inputs : Nat
  num_weights : Nat
  output_dim : Nat
  forward : List ℚ → List ℚ → List ℚ
  backward : List ℚ → List ℚ → List (List ℚ)

/-- A resolved loss: per-sample value plus sub-gradient with respect
to the prediction (spec §4.2). -/
structure LossFn where
  val : List ℚ → List ℚ → ℚ
  grad : List ℚ → List ℚ → List ℚ

/-- Loss identifier.  Modelled from the spec: §4.2 — a short name or a
custom callable/object carrying its own sub-gradient (`custom` also
covers `cross_entropy`, whose transcendental value function is
supplied by the caller side in this rational model). -/
inductive LossId where
  | squared_error
  | absolute_error
  | custom (val : List ℚ → List ℚ → ℚ) (grad : List ℚ → List ℚ → List ℚ)

/-- Loss Registry resolution (spec §4.2). -/
def resolveLoss : LossId → LossFn
  | .squared_error =>
      ⟨fun p t => (List.zipWith (fun a b => (a - b) ^ 2) p t).sum,
       fun p t => List.zipWith (fun a b => 2 * (a - b)) p t⟩
  | .absolute_error =>
      ⟨fun p t => (List.zipWith (fun a b => |a - b|) p t).sum,
       fun p t => List.zipWith (fun a b => if b ≤ a then 1 else -1) p t⟩
  | .custom v g => ⟨v, g⟩

/-- One-hot indicator row of width `k` with a 1 at index `j`. -/
def indicator (k j : Nat) : List ℚ :=
  (List.range k).map fun i => if i = j then 1 else 0

/-- Index of a value in the sorted distinct-value table (0 when
absent; fit-time labels are always present). -/
def idxOf (v : LabelVal) : List LabelVal → Nat
  | [] => 0
  | w :: ws => if v = w then 0 else idxOf v ws + 1

/-- Encode one label value as the oracle-facing target row under a
policy.  Modelled from the spec: §3 — Binary maps the two observed
values to the fixed pair {0, 1}; Categorical one-hot encodes the
value's index.  (`oneHotPre` never reaches this function: it only
arises from rank-2 labels, whose rows are already targets.) -/
def encodeVal (p : Policy) (v : LabelVal) : List ℚ :=
  match p with
  | .binary lo _ => [if v = lo then 0 else 1]
  | .oneHotPre k => indicator k 0
  | .catOneHot vs => indicator vs.length (idxOf v vs)

/-- Target matrix for the objective, one row per sample (spec §4.1). -/
def encodeTargets (p : Policy) (y : Labels) : List (List ℚ) :=
  match y with
  | .rows ls => ls
  | .scalars qs => qs.map fun q => encodeVal p (.num q)
  | .cats ss => ss.map fun s => encodeVal p (.str s)

/-- Scalar objective of the Objective Builder.  Modelled from the
spec: §4.3 — "J(weights) = mean over samples of
loss(oracle.forward(x_i, weights), target_i)". -/
def objective (o : Oracle) (L : LossFn) (X T : List (List ℚ))
    (w : List ℚ) : ℚ :=
  (((X.zip T).map fun xt => L.val (o.forward xt.1 w) xt.2).sum) /
    ((X.zip T).length : ℚ)

/-- Componentwise vector sum (truncating, as `zipWith`). -/
def vecAdd (a b : List ℚ) : List ℚ := List.zipWith (· + ·) a b

/-- Scalar multiple of a vector. -/
def vecScale (c : ℚ) (a : List ℚ) : List ℚ := a.map (c * ·)

/-- Dot product. -/
def dotQ (a b : List ℚ) : ℚ := (List.zipWith (· * ·) a b).sum

/-- Sum of a list of `n`-vectors. -/
def sumVecs (n : Nat) (vs : List (List ℚ)) : List ℚ :=
  vs.foldr vecAdd (List.replicate n 0)

/-- Row vector times Jacobian: `(vᵀ M)_j = Σ_i v_i M_{i,j}`. -/
def vecMat (n : Nat) (v : List ℚ) (M : List (List ℚ)) : List ℚ :=
  sumVecs n (List.zipWith vecScale v M)

/-- Gradient of the objective via the chain rule.  Modelled from the
spec: §4.3 — "∇J(weights) = mean over samples of
loss_grad · oracle.backward(x_i, weights)". -/
def gradient (o : Oracle) (L : LossFn) (X T : List (List ℚ))
    (w : List ℚ) : List ℚ :=
  vecScale (1 / ((X.zip T).length : ℚ))
    (sumVecs o.num_weights
      ((X.zip T).map fun xt =>
        vecMat o.num_weights (L.grad (o.forward xt.1 w) xt.2)
          (o.backward xt.1 w)))

/-- One step reported by an optimizer backend, tagged with whether the
optimizer accepted it or performed it as an internal probe/rejected
evaluation.  Modelled from the spec: §3 Callback History and §6
optimizer backend contract. -/
structure OptStep where
  nfev : Nat
  point : List ℚ
  value : ℚ
  accepted : Bool
deriving DecidableEq

/-- Normalized optimizer result: "a common result shape exposing at
least the optimal point and the final objective value" (spec §4.4),
together with the step trace the driver observes. -/
structure OptRun where
  steps : List OptStep
  x : List ℚ
  value : ℚ
  nfev : Nat
deriving DecidableEq

/-- An optimizer backend under the driver's uniform protocol: it
receives the objective, its gradient (ignored by gradient-free
backends) and the initial point (spec §4.4). -/
def Optimizer : Type :=
  (List ℚ → ℚ) → (List ℚ → List ℚ) → List ℚ → OptRun

/-- Fit Result.  Modelled from the spec: §3 — "immutable record
holding the optimizer's returned weight vector, final objective
value, function-evaluation count". -/
structure FitResult where
  x : List ℚ
  value : ℚ
  nfev : Nat
deriving DecidableEq

/-- Classifier State: `{unfitted, fitted}` (spec §3).  The fitted
state carries the encoding policy, the fitted weights, and the Fit
Result of the `fit` call that produced it (`none` for a state
reconstructed from a persistence envelope, which stores only the
weights). -/
inductive ClState where
  | unfitted
  | fitted (policy : Policy) (w : List ℚ) (result : Option FitResult)
deriving DecidableEq

/-- The classifier.  Modelled from the spec: §6 caller-facing surface
with configuration `{loss, one_hot, initial_point}`; the optimizer is
passed to the driver at `fit` time. -/
structure Classifier where
  oracle : Oracle
  one_hot : Bool
  lossId : LossId
  initial_point : Option (List ℚ)
  state : ClState

/-- Deterministic default initial point derived from the oracle's
declared weight count (spec §4.4: "all-zeros or all-equal
midpoint"). -/
def defaultInitialPoint (n : Nat) : List ℚ := List.replicate n 0

/-- `fit`, instrumented to also return the optimizer run the driver
observed.  Modelled from the spec: §4.5 — validates shapes, builds
the encoding, builds the objective/gradient, runs the Optimizer
Driver, stores the Fit Result and transitions to Fitted; any
validation failure is reported before the optimizer is consulted. -/
def fitRun (c : Classifier) (opt : Optimizer) (X : List (List ℚ))
    (y : Labels) : Except MLError (Classifier × OptRun) :=
  if X.length ≠ labelCount y then
    .error (.validation "feature and label row counts differ")
  else
    match encodeLabels y c.oracle.output_dim c.one_hot with
    | .error e => .error e
    | .ok p =>
        let L := resolveLoss c.lossId
        let T := encodeTargets p y
        let x0 := c.initial_point.getD (defaultInitialPoint c.oracle.num_weights)
        let run := opt (objective c.oracle L X T) (gradient c.oracle L X T) x0
        .ok ({ c with state := .fitted p run.x (some ⟨run.x, run.value, run.nfev⟩) },
             run)

/-- Caller-facing `fit` (spec §4.5). -/
def fit (c : Classifier) (opt : Optimizer) (X : List (List ℚ))
    (y : Labels) : Except MLError Classifier :=
  (fitRun c opt X y).map Prod.fst

/-- The classifier the caller holds after a `fit` call that may have
raised: on an error the instance is unchanged (spec §7: "`fit`
failures never leave the classifier in a partially-fitted state"). -/
def fitInPlace (c : Classifier) (opt : Optimizer) (X : List (List ℚ))
    (y : Labels) : Classifier :=
  match fit c opt X y with
  | .ok c₂ => c₂
  | .error _ => c

/-- Read-only `weights`: accessible only in the fitted state; access
while unfitted is a state error, not a default value (spec §3). -/
def weights (c : Classifier) : Except MLError (List ℚ) :=
  match c.state with
  | .unfitted => .error (.state "model not fitted")
  | .fitted _ w _ => .ok w

/-- Read-only `fit_result` (spec §3, §7: state error while
unfitted). -/
def fitResultOf (c : Classifier) : Except MLError FitResult :=
  match c.state with
  | .unfitted => .error (.state "model not fitted")
  | .fitted _ _ none => .error (.state "no fit result available")
  | .fitted _ _ (some r) => .ok r

/-- Read-only `num_classes` (spec §3). -/
def numClassesOf (c : Classifier) : Except MLError Nat :=
  match c.state with
  | .unfitted => .error (.state "model not fitted")
  | .fitted p _ _ => .ok p.numClasses

/-- Index of the (first) largest entry of a nonempty tail, seeded. -/
def argmaxAux : List ℚ → Nat → Nat → ℚ → Nat
  | [], _, best, _ => best
  | q :: qs, i, best, bv =>
      if bv < q then argmaxAux qs (i + 1) i q
      else argmaxAux qs (i + 1) best bv

/-- Arg-max index of an oracle output row (0 for an empty row). -/
def argmaxIdx : List ℚ → Nat
  | [] => 0
  | q :: qs => argmaxAux qs 1 0 q

/-- A prediction in the original label representation: a scalar or
categorical value, or a one-hot row when training labels were
pre-encoded rows (spec §4.5: "returns labels in the original
representation"). -/
inductive Pred where
  | val (v : LabelVal)
  | oneHotRow (r : List ℚ)
deriving DecidableEq

/-- Label Encoder inverse.  Modelled from the spec: §4.1 — "Binary
returns the nearer of the two mapped original values;
One-Hot/Categorical returns the original label at the arg-max
index". -/
def decode (p : Policy) (out : List ℚ) : Pred :=
  match p with
  | .binary lo hi =>
      let s := out.headD 0
      if |s - 0| ≤ |s - 1| then .val lo else .val hi
  | .oneHotPre k => .oneHotRow (indicator k (argmaxIdx out))
  | .catOneHot vs => .val (vs.getD (argmaxIdx out) (.num 0))

/-- `predict` on a batch: requires Fitted; runs `oracle.forward` with
the fitted weights and applies the Label Encoder inverse (spec
§4.5). -/
def predict (c : Classifier) (f : List (List ℚ)) :
    Except MLError (List Pred) :=
  match c.state with
  | .unfitted => .error (.state "model not fitted")
  | .fitted p w _ => .ok (f.map fun x => decode p (c.oracle.forward x w))

/-- `predict` on a single 1-D sample (spec §4.3: single samples and
batches are supported uniformly). -/
def predictOne (c : Classifier) (x : List ℚ) : Except MLError Pred :=
  match c.state with
  | .unfitted => .error (.state "model not fitted")
  | .fitted p w _ => .ok (decode p (c.oracle.forward x w))

/-- `predict_proba`: requires Fitted; for Binary returns a two-column
distribution derived from the scalar score; otherwise requires the
oracle output to be probability-like and returns it (spec §4.5). -/
def predictProba (c : Classifier) (f : List (List ℚ)) :
    Except MLError (List (List ℚ)) :=
  match c.state with
  | .unfitted => .error (.state "model not fitted")
  | .fitted p w _ =>
      match p with
      | .binary _ _ =>
          .ok (f.map fun x =>
            let s := (c.oracle.forward x w).headD 0
            [1 - s, s])
      | _ =>
          let rows := f.map fun x => c.oracle.forward x w
          if rows.all fun r => decide (|r.sum - 1| ≤ tol) then .ok rows
          else .error (.validation "oracle output is not probability-like")

/-- Tag naming the class a persistence envelope is loaded through
(spec §4.6: only the recognized persistable model type may load an
envelope). -/
inductive ModelType where
  | nnClassifier
  | nnRegressor
  | fakeModel
deriving DecidableEq

/-- Persistence Envelope.  Modelled from the spec: §4.6 — "Serializes:
encoding policy (variant tag + mapping tables), fitted weights, a
reference sufficient to reconstruct/rebind the oracle (opaque to this
component), and loss identifier", plus the persisted-model type tag
checked on load. -/
structure Envelope where
  policy : Policy
  w : List ℚ
  oracleRef : Oracle
  lossId : LossId
  modelType : ModelType

/-- Serialize a fitted classifier (spec §4.6). -/
def toEnvelope (c : Classifier) : Except MLError Envelope :=
  match c.state with
  | .unfitted => .error (.state "model not fitted")
  | .fitted p w _ => .ok ⟨p, w, c.oracle, c.lossId, .nnClassifier⟩

/-- Deserialize through the class `cls`.  Modelled from the spec:
§4.6 — reconstructs a Fitted classifier without re-running
optimization (no optimizer is consulted; only the envelope's four
fields are read); loading into a class that is not the recognized
persisted-model type is a configuration error. -/
def fromEnvelope (cls : ModelType) (e : Envelope) :
    Except MLError Classifier :=
  if cls = e.modelType then
    .ok ⟨e.oracleRef, false, e.lossId, none, .fitted e.policy e.w none⟩
  else .error (.configuration "unsupported persisted-model type on load")

/-- Serialize then deserialize through the recognized classifier
class (the round trip of the `test_save_load` scenario). -/
def roundTrip (c : Classifier) : Except MLError Classifier :=
  match toEnvelope c with
  | .error e => .error e
  | .ok e => fromEnvelope .nnClassifier e

/-- A sparse row: stored `(column, value)` entries; absent columns
hold 0 (a CSR-style row, spec §4.1 "a sparse row matrix"). -/
abbrev SparseRow := List (Nat × ℚ)

/-- A sparse row matrix. -/
abbrev SparseMat := List SparseRow

/-- The value a sparse row stores at a column (0 when absent). -/
def lookupIdx (row : SparseRow) (j : Nat) : ℚ :=
  match row.find? fun e => e.1 == j with
  | some e => e.2
  | none => 0

/-- Materialize a sparse row at width `n`. -/
def denseRow (n : Nat) (row : SparseRow) : List ℚ :=
  (List.range n).map (lookupIdx row)

/-- Materialize a sparse matrix at width `n`. -/
def denseMat (n : Nat) (S : SparseMat) : List (List ℚ) :=
  S.map (denseRow n)

/-- A sparse row represents a dense row: every stored entry agrees
with the dense row, and every column no entry mentions is 0 there. -/
abbrev RowRepresents (row : SparseRow) (d : List ℚ) : Prop :=
  (∀ e ∈ row, e.1 < d.length ∧ d.getD e.1 0 = e.2) ∧
  (∀ j, j < d.length → (∀ e ∈ row, e.1 ≠ j) → d.getD j 0 = 0)

/-- The sparse-container entry point of `fit`: sparse features and
sparse one-hot targets are materialized at the oracle's declared
widths and follow the same pipeline (spec §4.3: "sparse is purely a
memory optimization, never a semantic change"). -/
def fitRunSparse (c : Classifier) (opt : Optimizer) (Xs Ys : SparseMat) :
    Except MLError (Classifier × OptRun) :=
  fitRun c opt (denseMat c.oracle.num_inputs Xs)
    (.rows (denseMat c.oracle.output_dim Ys))

/-- One argument value passed to the caller's callback.  `countArg`
exists only to state the claim that an evaluation count is passed; the
classifier-level callback of the source's test suite
(`_create_callback`, test file lines 74-85) is invoked as
`callback(objective_weights, objective_value)`. -/
inductive CallbackArg where
  | weightsArg (w : List ℚ)
  | valueArg (v : ℚ)
  | countArg (n : Nat)
deriving DecidableEq

/-- The invocations of the caller's callback during an optimizer run:
one per accepted step, in step order, none for rejected/probe steps;
each carries the step's weights and objective value.  Modelled from
the spec (§3 Callback History) for the per-accepted-step discipline,
with the argument list taken from the test suite's callback
signature. -/
def callbackInvocations (run : OptRun) : List (List ℚ × ℚ) :=
  (run.steps.filter fun s => s.accepted).map fun s => (s.point, s.value)

/-- The positional argument list of one callback invocation, per the
test suite's `callback(objective_weights, objective_value)`. -/
def invocationArgs (inv : List ℚ × ℚ) : List CallbackArg :=
  [.weightsArg inv.1, .valueArg inv.2]

/-- Callback invocations of a `fit` outcome (empty when `fit`
raised: a failed fit never ran the optimizer past validation). -/
def invocationsOf (r : Except MLError (Classifier × OptRun)) :
    List (List ℚ × ℚ) :=
  match r with
  | .ok pr => callbackInvocations pr.2
  | .error _ => []

/-- The premise of the two-class property: scalar or categorical
labels with exactly two distinct values, or two-column pre-encoded
one-hot rows. -/
def twoClassInput : Labels → Prop
  | .rows ls => ∀ r ∈ ls, r.length = 2
  | y => (distinctVals y).length = 2

deriving instance DecidableEq for Except

section Fixtures

/-- A concrete linear oracle used by the witnesses: 2 inputs,
2 weights, scalar output `⟨x, w⟩`, Jacobian `[x]`. -/
def exOracle : Oracle :=
  { num_inputs := 2, num_weights := 2, output_dim := 1,
    forward := fun x w => [dotQ x w],
    backward := fun x _ => [x] }

/-- A fresh (unfitted) classifier over `exOracle`. -/
def exUnfitted : Classifier :=
  { oracle := exOracle, one_hot := false, lossId := .squared_error,
    initial_point := some [0, 0], state := .unfitted }

/-- A concrete optimizer backend: reports one accepted step and one
internal probe step and returns the initial point with objective
value 0 (it never consults the objective, as an external minimizer
may). -/
def exOpt : Optimizer := fun _ _ x0 =>
  { steps := [⟨1, x0, 0, true⟩, ⟨2, x0, 0, false⟩],
    x := x0, value := 0, nfev := 2 }

/-- Concrete training features. -/
def exX : List (List ℚ) := [[0, 0], [1, 1]]

/-- Concrete binary scalar labels. -/
def exY : Labels := .scalars [0, 1]

/-- Concrete categorical string labels. -/
def exYCat : Labels := .cats ["A", "B"]

/-- A concrete fitted classifier (Binary policy) for accessor and
probability witnesses. -/
def exFitted : Classifier :=
  { oracle := exOracle, one_hot := false, lossId := .squared_error,
    initial_point := some [0, 0],
    state := .fitted (.binary (.num 0) (.num 1)) [0, 0]
      (some ⟨[0, 0], 0, 2⟩) }

/-- A concrete envelope, as written by `toEnvelope exFitted`. -/
def exEnvelope : Envelope :=
  ⟨.binary (.num 0) (.num 1), [0, 0], exOracle, .squared_error,
   .nnClassifier⟩

/-- The classifier produced by fitting `exUnfitted` on `exX`/`exYCat`
with `exOpt` (categorical Binary policy over `"A"`, `"B"`). -/
def exFittedCat : Classifier :=
  { oracle := exOracle, one_hot := false, lossId := .squared_error,
    initial_point := some [0, 0],
    state := .fitted (.binary (.str "A") (.str "B")) [0, 0]
      (some ⟨[0, 0], 0, 2⟩) }

/-- A concrete oracle with two-dimensional output, for the sparse
one-hot fit of `test_sparse_arrays`. -/
def exOracleB : Oracle :=
  { num_inputs := 2, num_weights := 2, output_dim := 2,
    forward := fun x _ => x,
    backward := fun x _ => [x, x] }

/-- An unfitted one-hot classifier over `exOracleB`. -/
def exCB : Classifier :=
  { oracle := exOracleB, one_hot := true, lossId := .squared_error,
    initial_point := some [0, 0], state := .unfitted }

/-- Sparse storage of the features `exX = [[0,0],[1,1]]` (the first
row stores no entries: both of its values are implicit zeros). -/
def exSpX : SparseMat := [[], [(0, 1), (1, 1)]]

/-- Dense one-hot targets `[[1,0],[0,1]]` of `test_sparse_arrays`. -/
def exYRows : List (List ℚ) := [[1, 0], [0, 1]]

/-- Sparse storage of `exYRows`. -/
def exSpY : SparseMat := [[(0, 1)], [(1, 1)]]

end Fixtures

/-! ## Theorems -/

/-- C2: for every freshly constructed (unfitted) classifier, reading
`weights` or `fit_result`, or calling `predict` or `predict_proba`
with any features argument (the empty batch included), raises a state
error rather than returning a default or empty value. -/
theorem c2_unfitted_access_is_state_error (c : Classifier)
    (h : c.state = .unfitted) :
    weights c = .error (.state "model not fitted") ∧
    fitResultOf c = .error (.state "model not fitted") ∧
    (∀ f, predict c f = .error (.state "model not fitted")) ∧
    (∀ f, predictProba c f = .error (.state "model not fitted")) := by
  refine ⟨?_, ?_, fun f => ?_, fun f => ?_⟩ <;>
    simp [weights, fitResultOf, predict, predictProba, h]

/-- Witness for C2 at the concrete fresh classifier `exUnfitted`. -/
theorem c2_unfitted_access_is_state_error_witness :
    weights exUnfitted = .error (.state "model not fitted") ∧
    fitResultOf exUnfitted = .error (.state "model not fitted") ∧
    (∀ f, predict exUnfitted f = .error (.state "model not fitted")) ∧
    (∀ f, predictProba exUnfitted f = .error (.state "model not fitted")) :=
  c2_unfitted_access_is_state_error exUnfitted (by decide)

/-- C9: loading a serialized model envelope through a class that is
not the recognized persistable model type is a configuration error,
never a silent no-op. -/
theorem c9_wrong_class_load_is_configuration_error
    (cls : ModelType) (e : Envelope) (h : cls ≠ e.modelType) :
    fromEnvelope cls e =
      .error (.configuration "unsupported persisted-model type on load") := by
  simp [fromEnvelope, h]

/-- Witness for C9: a fake model class loading a classifier
envelope. -/
theorem c9_wrong_class_load_is_configuration_error_witness :
    fromEnvelope .fakeModel exEnvelope =
      .error (.configuration "unsupported persisted-model type on load") :=
  c9_wrong_class_load_is_configuration_error .fakeModel exEnvelope (by decide)

/-- C5: every row of a successful `predict_proba` result sums to 1
within the floating tolerance `1e-5`, on both the Binary path (the
two columns are `1 - s` and `s`) and the One-Hot path (the oracle
output is checked to be probability-like). -/
theorem c5_predict_proba_rows_sum_to_one (c : Classifier)
    (f rows : List (List ℚ)) (h : predictProba c f = .ok rows) :
    ∀ r ∈ rows, |r.sum - 1| ≤ tol := by
  cases hs : c.state with
  | unfitted => simp [predictProba, hs] at h
  | fitted p w r0 =>
      cases p with
      | binary lo hi =>
          simp only [predictProba, hs, Except.ok.injEq] at h
          subst h
          intro r hr
          simp only [List.mem_map] at hr
          obtain ⟨x, _, rfl⟩ := hr
          have : ((1 : ℚ) - (c.oracle.forward x w).headD 0) +
              ((c.oracle.forward x w).headD 0 + 0) - 1 = 0 := by ring
          simp only [List.sum_cons, List.sum_nil, this, abs_zero, tol]
          norm_num
      | oneHotPre k =>
          simp only [predictProba, hs] at h
          split at h
          · next hall =>
              cases h
              intro r hr
              have := List.all_eq_true.mp hall r hr
              simpa using this
          · cases h
      | catOneHot vs =>
          simp only [predictProba, hs] at h
          split at h
          · next hall =>
              cases h
              intro r hr
              have := List.all_eq_true.mp hall r hr
              simpa using this
          · cases h

/-- Witness for C5 at the concrete fitted classifier `exFitted`, its
probability row `[1, 0]` on the input `[0, 0]`. -/
theorem c5_predict_proba_rows_sum_to_one_witness :
    |List.sum [(1 : ℚ), 0] - 1| ≤ tol :=
  c5_predict_proba_rows_sum_to_one exFitted [[0, 0]] [[1, 0]]
    (by simp [predictProba, exFitted, exOracle, dotQ])
    [1, 0] (by simp)

/-- Helper: a rank-2 label container can never be encoded against an
oracle of output dimensionality 1 — every branch of the encoder
rejects it with a validation error. -/
theorem encode_rows_outdim_one (ls : List (List ℚ)) (flag : Bool) :
    ∃ m, encodeLabels (.rows ls) 1 flag = .error (.validation m) := by
  simp only [encodeLabels]
  split_ifs with h1 h2 h3 h4 h5
  all_goals first
    | exact ⟨_, rfl⟩
    | exact (h5 (by omega)).elim

/-- C1: fitting labels with three distinct values against an oracle
of output dimensionality 1 raises a validation error, the optimizer
backend is never consulted (every backend yields the same error), and
the classifier remains unfitted with no partial fit result. -/
theorem c1_multiclass_vs_binary_oracle_rejected
    (c : Classifier) (opt : Optimizer) (X : List (List ℚ)) (y : Labels)
    (hstate : c.state = .unfitted)
    (hdist : (distinctVals y).length = 3)
    (hdim : c.oracle.output_dim = 1) :
    (∃ m, ∀ opt₂ : Optimizer, fitRun c opt₂ X y = .error (.validation m)) ∧
    fitInPlace c opt X y = c ∧
    (fitInPlace c opt X y).state = .unfitted := by
  have henc : ∃ m, encodeLabels y c.oracle.output_dim c.one_hot =
      .error (.validation m) := by
    rw [hdim]
    cases y with
    | rows ls => exact encode_rows_outdim_one ls c.one_hot
    | scalars qs =>
        obtain ⟨a, b, d, hvs⟩ := List.length_eq_three.mp hdist
        exact ⟨"multiclass data against binary-only oracle",
          by simp [encodeLabels, hvs]⟩
    | cats ss =>
        obtain ⟨a, b, d, hvs⟩ := List.length_eq_three.mp hdist
        exact ⟨"multiclass data against binary-only oracle",
          by simp [encodeLabels, hvs]⟩
  have herr : ∃ m, ∀ opt₂ : Optimizer,
      fitRun c opt₂ X y = .error (.validation m) := by
    by_cases hc : X.length ≠ labelCount y
    · exact ⟨"feature and label row counts differ",
        fun opt₂ => by simp [fitRun, hc]⟩
    · obtain ⟨m, hm⟩ := henc
      exact ⟨m, fun opt₂ => by simp [fitRun, hc, hm]⟩
  obtain ⟨m, hm⟩ := herr
  have hip : fitInPlace c opt X y = c := by
    simp [fitInPlace, fit, hm opt, Except.map]
  exact ⟨⟨m, hm⟩, hip, by rw [hip, hstate]⟩

/-- Witness for C1: three scalar classes `{0, 1, 2}` against the
scalar-output oracle of `exUnfitted`. -/
theorem c1_multiclass_vs_binary_oracle_rejected_witness :
    (∃ m, ∀ opt₂ : Optimizer,
      fitRun exUnfitted opt₂ [[0, 0], [1, 0], [0, 1]] (.scalars [0, 1, 2]) =
        .error (.validation m)) ∧
    fitInPlace exUnfitted exOpt [[0, 0], [1, 0], [0, 1]] (.scalars [0, 1, 2]) =
      exUnfitted ∧
    (fitInPlace exUnfitted exOpt [[0, 0], [1, 0], [0, 1]]
      (.scalars [0, 1, 2])).state = .unfitted :=
  c1_multiclass_vs_binary_oracle_rejected exUnfitted exOpt
    [[0, 0], [1, 0], [0, 1]] (.scalars [0, 1, 2])
    (by decide) (by decide) (by decide)

/-- C4 counterexample: a two-column pre-encoded one-hot label array
draws its values from exactly two distinct values `{0, 1}`, yet the
encoder selects the One-Hot policy (rule 1 fires before the Binary
rule), not Binary as the claim states. -/
theorem c4_counterexample :
    (distinctVals (.rows [[1, 0], [0, 1]])).length = 2 ∧
    encodeLabels (.rows [[1, 0], [0, 1]]) 2 true = .ok (.oneHotPre 2) ∧
    (Policy.oneHotPre 2).isBinary = false ∧
    (Policy.oneHotPre 2).numClasses = 2 := by
  refine ⟨by decide, ?_, by decide, by decide⟩
  simp [encodeLabels, tol]

/-- C4 as amended: for every label array drawn from exactly two
distinct values (two-column rows in the pre-encoded case),
`num_classes` is 2; the Binary policy is the one selected when the
labels are scalar or categorical and one-hot encoding is not
requested, the two policy values being the two observed label
values; two-column pre-encoded rows select the One-Hot policy, and
categorical/scalar labels with one-hot explicitly requested select
the categorical One-Hot policy over the two sorted observed values —
in neither case Binary. -/
theorem c4_amended_two_distinct_classes (y : Labels) (d : Nat)
    (flag : Bool) (p : Policy)
    (henc : encodeLabels y d flag = .ok p) (hy : twoClassInput y) :
    p.numClasses = 2 ∧
    (y.isRows = false → flag = false →
      ∃ lo hi, distinctVals y = [lo, hi] ∧ p = .binary lo hi) ∧
    (y.isRows = true → p = .oneHotPre 2 ∧ p.isBinary = false) ∧
    (y.isRows = false → flag = true →
      ∃ lo hi, distinctVals y = [lo, hi] ∧ p = .catOneHot [lo, hi] ∧
        p.isBinary = false) := by
  cases y with
  | rows ls =>
      simp only [encodeLabels] at henc
      split_ifs at henc with h1 h2 h3 h4 h5
      simp only [Except.ok.injEq] at henc
      subst henc
      have hne : ls ≠ [] := by simpa [List.isEmpty_iff] using h1
      obtain ⟨r, ls₂, rfl⟩ := List.exists_cons_of_ne_nil hne
      have hr2 : r.length = 2 := hy r (by simp)
      refine ⟨?_, by simp [Labels.isRows], fun _ => ?_,
        by simp [Labels.isRows]⟩
      · simp [Policy.numClasses, hr2]
      · exact ⟨by simp [hr2], rfl⟩
  | scalars qs =>
      simp only [twoClassInput] at hy
      obtain ⟨a, b, hvs⟩ := List.length_eq_two.mp hy
      simp only [encodeLabels, hvs] at henc
      cases flag with
      | true =>
          simp only [if_true] at henc
          split_ifs at henc
          simp only [Except.ok.injEq] at henc
          subst henc
          refine ⟨rfl, ?_, ?_, fun _ _ => ⟨a, b, hvs, rfl, rfl⟩⟩
          · intro _ h
            exact absurd h (by simp)
          · intro h
            simp [Labels.isRows] at h
      | false =>
          simp only [if_false, Bool.false_eq_true] at henc
          simp only [Except.ok.injEq] at henc
          subst henc
          refine ⟨rfl, fun _ _ => ⟨a, b, hvs, rfl⟩, ?_, ?_⟩
          · intro h
            simp [Labels.isRows] at h
          · intro _ h
            exact absurd h (by simp)
  | cats ss =>
      simp only [twoClassInput] at hy
      obtain ⟨a, b, hvs⟩ := List.length_eq_two.mp hy
      simp only [encodeLabels, hvs] at henc
      cases flag with
      | true =>
          simp only [if_true] at henc
          split_ifs at henc
          simp only [Except.ok.injEq] at henc
          subst henc
          refine ⟨rfl, ?_, ?_, fun _ _ => ⟨a, b, hvs, rfl, rfl⟩⟩
          · intro _ h
            exact absurd h (by simp)
          · intro h
            simp [Labels.isRows] at h
      | false =>
          simp only [if_false, Bool.false_eq_true] at henc
          simp only [Except.ok.injEq] at henc
          subst henc
          refine ⟨rfl, fun _ _ => ⟨a, b, hvs, rfl⟩, ?_, ?_⟩
          · intro h
            simp [Labels.isRows] at h
          · intro _ h
            exact absurd h (by simp)

/-- Witness for the amended C4: categorical labels `{"A", "B"}` with
one-hot explicitly requested select the categorical One-Hot policy,
not Binary, with `num_classes = 2`. -/
theorem c4_amended_two_distinct_classes_witness :
    (Policy.catOneHot [.str "A", .str "B"]).numClasses = 2 ∧
    ((Labels.cats ["A", "B"]).isRows = false → true = false →
      ∃ lo hi, distinctVals (.cats ["A", "B"]) = [lo, hi] ∧
        Policy.catOneHot [.str "A", .str "B"] = .binary lo hi) ∧
    ((Labels.cats ["A", "B"]).isRows = true →
      Policy.catOneHot [.str "A", .str "B"] = .oneHotPre 2 ∧
      (Policy.catOneHot [.str "A", .str "B"]).isBinary = false) ∧
    ((Labels.cats ["A", "B"]).isRows = false → true = true →
      ∃ lo hi, distinctVals (.cats ["A", "B"]) = [lo, hi] ∧
        Policy.catOneHot [.str "A", .str "B"] = .catOneHot [lo, hi] ∧
        (Policy.catOneHot [.str "A", .str "B"]).isBinary = false) :=
  c4_amended_two_distinct_classes (.cats ["A", "B"]) 2 true
    (.catOneHot [.str "A", .str "B"]) (by decide)
    (show (distinctVals (.cats ["A", "B"])).length = 2 by decide)

/-- C3: serializing a fitted classifier to the persistence envelope
and deserializing it through the recognized classifier class yields a
fitted classifier whose `predict` (and `predict_proba`) agree with
the original on every input; no optimizer is consulted on the way
(`roundTrip` reads only the envelope's stored policy, weights, oracle
reference and loss). -/
theorem c3_round_trip_preserves_predict
    (c : Classifier) (p : Policy) (w : List ℚ) (r : Option FitResult)
    (h : c.state = .fitted p w r) :
    ∃ c₂, roundTrip c = .ok c₂ ∧ c₂.state = .fitted p w none ∧
      (∀ f, predict c₂ f = predict c f) ∧
      (∀ x, predictOne c₂ x = predictOne c x) ∧
      (∀ f, predictProba c₂ f = predictProba c f) := by
  refine ⟨⟨c.oracle, false, c.lossId, none, .fitted p w none⟩,
    by simp [roundTrip, toEnvelope, fromEnvelope, h], rfl, fun f => ?_,
    fun x => ?_, fun f => ?_⟩
  · simp [predict, h]
  · simp [predictOne, h]
  · simp [predictProba, h]

/-- Witness for C3 at the concrete fitted classifier `exFitted`. -/
theorem c3_round_trip_preserves_predict_witness :
    ∃ c₂, roundTrip exFitted = .ok c₂ ∧
      c₂.state = .fitted (.binary (.num 0) (.num 1)) [0, 0] none ∧
      (∀ f, predict c₂ f = predict exFitted f) ∧
      (∀ x, predictOne c₂ x = predictOne exFitted x) ∧
      (∀ f, predictProba c₂ f = predictProba exFitted f) :=
  c3_round_trip_preserves_predict exFitted (.binary (.num 0) (.num 1))
    [0, 0] (some ⟨[0, 0], 0, 2⟩) (by decide)

/-- C10: after every successful fit, `weights` equals `fit_result.x`
and its length is the oracle's declared weight count — for every
optimizer backend that returns a point of the dimension it was given,
every loss choice, and every initial point consistent with the
oracle. -/
theorem c10_weights_equal_fit_result_x
    (c : Classifier) (opt : Optimizer) (X : List (List ℚ)) (y : Labels)
    (c₂ : Classifier) (run : OptRun)
    (hopt : ∀ obj grd x0, (opt obj grd x0).x.length = x0.length)
    (hinit : ∀ pt, c.initial_point = some pt →
      pt.length = c.oracle.num_weights)
    (hfit : fitRun c opt X y = .ok (c₂, run)) :
    ∃ fr, fitResultOf c₂ = .ok fr ∧ weights c₂ = .ok fr.x ∧
      fr.x.length = c.oracle.num_weights := by
  simp only [fitRun] at hfit
  split_ifs at hfit
  split at hfit
  · cases hfit
  · next p hp =>
      simp only [Except.ok.injEq, Prod.mk.injEq] at hfit
      obtain ⟨hc₂, hrun⟩ := hfit
      subst hc₂
      subst hrun
      refine ⟨_, rfl, rfl, ?_⟩
      rw [hopt]
      cases hip : c.initial_point with
      | none => simp [hip, defaultInitialPoint]
      | some pt => simp [hip, hinit pt hip]

/-- Witness for C10: the concrete fit of `exUnfitted` by `exOpt`. -/
theorem c10_weights_equal_fit_result_x_witness :
    ∃ fr, fitResultOf exFitted = .ok fr ∧ weights exFitted = .ok fr.x ∧
      fr.x.length = exUnfitted.oracle.num_weights :=
  c10_weights_equal_fit_result_x exUnfitted exOpt exX exY exFitted
    ⟨[⟨1, [0, 0], 0, true⟩, ⟨2, [0, 0], 0, false⟩], [0, 0], 0, 2⟩
    (fun _ _ _ => rfl)
    (fun pt hpt => by
      simp only [exUnfitted, Option.some.injEq] at hpt
      subst hpt
      rfl)
    rfl

/-- C8: a classifier fitted on categorical string labels drawn from
`{"A", "B"}` with one-hot encoding not requested predicts only the
values `"A"` and `"B"` (batch and single 1-D sample alike), and its
`predict_proba` on `n` rows is an `n × 2` matrix. -/
theorem c8_categorical_binary_predictions
    (c : Classifier) (opt : Optimizer) (X : List (List ℚ))
    (ls : List String) (c₂ : Classifier) (run : OptRun)
    (hflag : c.one_hot = false)
    (hdist : distinctVals (.cats ls) = [.str "A", .str "B"])
    (hfit : fitRun c opt X (.cats ls) = .ok (c₂, run)) :
    (∀ f, ∃ ps, predict c₂ f = .ok ps ∧
      ∀ pr ∈ ps, pr = .val (.str "A") ∨ pr = .val (.str "B")) ∧
    (∀ x, ∃ pr, predictOne c₂ x = .ok pr ∧
      (pr = .val (.str "A") ∨ pr = .val (.str "B"))) ∧
    (∀ f, ∃ rows, predictProba c₂ f = .ok rows ∧
      rows.length = f.length ∧ ∀ r ∈ rows, r.length = 2) := by
  simp only [fitRun] at hfit
  split_ifs at hfit
  split at hfit
  · cases hfit
  · next p hp =>
      rw [hflag] at hp
      simp only [encodeLabels, hdist, Bool.false_eq_true, if_false,
        Except.ok.injEq] at hp
      subst hp
      simp only [Except.ok.injEq, Prod.mk.injEq] at hfit
      obtain ⟨hc₂, hrun⟩ := hfit
      subst hc₂
      refine ⟨fun f => ⟨_, rfl, ?_⟩, fun x => ⟨_, rfl, ?_⟩,
        fun f => ⟨_, rfl, by simp, ?_⟩⟩
      · intro pr hpr
        simp only [List.mem_map] at hpr
        obtain ⟨x, _, rfl⟩ := hpr
        simp only [decode]
        split
        · exact Or.inl rfl
        · exact Or.inr rfl
      · simp only [decode]
        split
        · exact Or.inl rfl
        · exact Or.inr rfl
      · intro r hr
        simp only [List.mem_map] at hr
        obtain ⟨x, _, rfl⟩ := hr
        rfl

/-- Witness for C8: the concrete categorical fit of `exUnfitted` on
`exX` and labels `["A", "B"]` by `exOpt`. -/
theorem c8_categorical_binary_predictions_witness :
    (∀ f, ∃ ps, predict exFittedCat f = .ok ps ∧
      ∀ pr ∈ ps, pr = .val (.str "A") ∨ pr = .val (.str "B")) ∧
    (∀ x, ∃ pr, predictOne exFittedCat x = .ok pr ∧
      (pr = .val (.str "A") ∨ pr = .val (.str "B"))) ∧
    (∀ f, ∃ rows, predictProba exFittedCat f = .ok rows ∧
      rows.length = f.length ∧ ∀ r ∈ rows, r.length = 2) :=
  c8_categorical_binary_predictions exUnfitted exOpt exX ["A", "B"]
    exFittedCat
    ⟨[⟨1, [0, 0], 0, true⟩, ⟨2, [0, 0], 0, false⟩], [0, 0], 0, 2⟩
    (by decide) (by decide) rfl

/-- C7 counterexample: in the concrete fit of `exUnfitted` by
`exOpt`, the user callback is invoked (once, for the accepted step),
but its argument list is the two-element
`(objective_weights, objective_value)` of the source's test suite —
it is never the claimed three-element
`(evaluation_count, current_weights, current_loss)`. -/
theorem c7_counterexample :
    (fitRun exUnfitted exOpt exX exY).map Prod.snd =
      .ok ⟨[⟨1, [0, 0], 0, true⟩, ⟨2, [0, 0], 0, false⟩], [0, 0], 0, 2⟩ ∧
    invocationsOf (fitRun exUnfitted exOpt exX exY) = [([0, 0], 0)] ∧
    invocationArgs ([0, 0], 0) = [.weightsArg [0, 0], .valueArg 0] ∧
    ∀ n wts v, invocationArgs ([0, 0], 0) ≠
      [.countArg n, .weightsArg wts, .valueArg v] := by
  refine ⟨by decide, by decide, by decide, fun n wts v h => ?_⟩
  simp [invocationArgs] at h

/-- C7 as amended: during every successful fit, the user callback is
invoked exactly once per accepted optimization step, in step order,
with the two arguments `(current_weights, current_loss)` of that
step; no invocation occurs for rejected or internal probe
evaluations. -/
theorem c7_amended_callback_per_accepted_step
    (c : Classifier) (opt : Optimizer) (X : List (List ℚ)) (y : Labels)
    (run : OptRun) (hfit : (fitRun c opt X y).map Prod.snd = .ok run) :
    invocationsOf (fitRun c opt X y) = callbackInvocations run ∧
    (callbackInvocations run).length =
      (run.steps.filter fun s => s.accepted).length ∧
    (∀ i, i < (callbackInvocations run).length →
      (callbackInvocations run).getD i ([], 0) =
        (((run.steps.filter fun s => s.accepted).getD i ⟨0, [], 0, false⟩).point,
         ((run.steps.filter fun s => s.accepted).getD i ⟨0, [], 0, false⟩).value)) ∧
    (∀ inv ∈ callbackInvocations run,
      invocationArgs inv = [.weightsArg inv.1, .valueArg inv.2]) := by
  refine ⟨?_, by simp [callbackInvocations], fun i hi => ?_, fun inv _ => rfl⟩
  · cases hout : fitRun c opt X y with
    | error e => rw [hout] at hfit; cases hfit
    | ok pr =>
        rw [hout] at hfit
        simp only [Except.map, Except.ok.injEq] at hfit
        rw [invocationsOf, hfit]
  · simp only [callbackInvocations, List.length_map] at hi
    simp only [callbackInvocations, List.getD_eq_getElem?_getD,
      List.getElem?_map, List.getElem?_eq_getElem hi]
    rfl

/-- Witness for the amended C7 at the concrete fit of `exUnfitted`
by `exOpt`. -/
theorem c7_amended_callback_per_accepted_step_witness :
    invocationsOf (fitRun exUnfitted exOpt exX exY) =
      callbackInvocations
        ⟨[⟨1, [0, 0], 0, true⟩, ⟨2, [0, 0], 0, false⟩], [0, 0], 0, 2⟩ ∧
    (callbackInvocations
        ⟨[⟨1, [0, 0], 0, true⟩, ⟨2, [0, 0], 0, false⟩], [0, 0], 0, 2⟩).length =
      (OptRun.steps ⟨[⟨1, [0, 0], 0, true⟩, ⟨2, [0, 0], 0, false⟩],
          [0, 0], 0, 2⟩ |>.filter fun s => s.accepted).length ∧
    (∀ i, i < (callbackInvocations
        ⟨[⟨1, [0, 0], 0, true⟩, ⟨2, [0, 0], 0, false⟩], [0, 0], 0, 2⟩).length →
      (callbackInvocations
        ⟨[⟨1, [0, 0], 0, true⟩, ⟨2, [0, 0], 0, false⟩], [0, 0], 0, 2⟩).getD i ([], 0) =
        (((OptRun.steps ⟨[⟨1, [0, 0], 0, true⟩, ⟨2, [0, 0], 0, false⟩],
            [0, 0], 0, 2⟩ |>.filter fun s => s.accepted).getD i
              ⟨0, [], 0, false⟩).point,
         ((OptRun.steps ⟨[⟨1, [0, 0], 0, true⟩, ⟨2, [0, 0], 0, false⟩],
            [0, 0], 0, 2⟩ |>.filter fun s => s.accepted).getD i
              ⟨0, [], 0, false⟩).value)) ∧
    (∀ inv ∈ callbackInvocations
        ⟨[⟨1, [0, 0], 0, true⟩, ⟨2, [0, 0], 0, false⟩], [0, 0], 0, 2⟩,
      invocationArgs inv = [.weightsArg inv.1, .valueArg inv.2]) :=
  c7_amended_callback_per_accepted_step exUnfitted exOpt exX exY
    ⟨[⟨1, [0, 0], 0, true⟩, ⟨2, [0, 0], 0, false⟩], [0, 0], 0, 2⟩
    (by decide)

/-- Helper: on a represented column, the sparse lookup agrees with
the dense row. -/
theorem lookupIdx_eq (row : SparseRow) (d : List ℚ)
    (hrep : RowRepresents row d) (j : Nat) (hj : j < d.length) :
    lookupIdx row j = d.getD j 0 := by
  unfold lookupIdx
  cases hfind : row.find? (fun e => e.1 == j) with
  | none =>
      have hnone := List.find?_eq_none.mp hfind
      exact (hrep.2 j hj fun e he => by simpa using hnone e he).symm
  | some e =>
      have hmem := List.mem_of_find?_eq_some hfind
      have hpe : e.1 = j := by simpa using List.find?_some hfind
      rw [← hpe]
      exact ((hrep.1 e hmem).2).symm

/-- Helper: materializing a sparse row that represents a dense row
reconstructs the dense row exactly. -/
theorem denseRow_represents (row : SparseRow) (d : List ℚ)
    (hrep : RowRepresents row d) : denseRow d.length row = d := by
  apply List.ext_getElem (by simp [denseRow])
  intro i h1 h2
  simp only [denseRow, List.getElem_map, List.getElem_range]
  rw [lookupIdx_eq row d hrep i h2, List.getD_eq_getElem?_getD,
    List.getElem?_eq_getElem h2]
  rfl

/-- Helper: a sparse matrix whose rows represent the rows of a dense
matrix of uniform width materializes to that dense matrix. -/
theorem denseMat_represents (n : Nat) (S : SparseMat)
    (D : List (List ℚ)) (hlen : S.length = D.length)
    (hw : ∀ r ∈ D, r.length = n)
    (hrep : ∀ i, i < D.length → RowRepresents (S.getD i []) (D.getD i [])) :
    denseMat n S = D := by
  apply List.ext_getElem (by simp [denseMat, hlen])
  intro i h1 h2
  have hiS : i < S.length := by rw [hlen]; exact h2
  simp only [denseMat, List.getElem_map]
  have hgS : S[i] = S.getD i [] := by
    rw [List.getD_eq_getElem?_getD, List.getElem?_eq_getElem hiS]
    rfl
  have hgD : D[i] = D.getD i [] := by
    rw [List.getD_eq_getElem?_getD, List.getElem?_eq_getElem h2]
    rfl
  have hwD : (D.getD i []).length = n := by
    rw [← hgD]
    exact hw _ (List.getElem_mem h2)
  rw [hgS, hgD, ← hwD]
  exact denseRow_represents _ _ (hrep i h2)

/-- C6: for a sparse feature/target pair representing the same data
as a dense pair, the objective, the gradient, and the whole fit
outcome of the sparse entry point coincide with those of the dense
entry point — sparse storage never changes numeric semantics. -/
theorem c6_sparse_dense_equivalent
    (c : Classifier) (opt : Optimizer) (L : LossFn) (w : List ℚ)
    (X Y : List (List ℚ)) (Xs Ys : SparseMat)
    (hxl : Xs.length = X.length) (hyl : Ys.length = Y.length)
    (hxw : ∀ r ∈ X, r.length = c.oracle.num_inputs)
    (hyw : ∀ r ∈ Y, r.length = c.oracle.output_dim)
    (hx : ∀ i, i < X.length → RowRepresents (Xs.getD i []) (X.getD i []))
    (hy : ∀ i, i < Y.length → RowRepresents (Ys.getD i []) (Y.getD i [])) :
    objective c.oracle L (denseMat c.oracle.num_inputs Xs)
        (denseMat c.oracle.output_dim Ys) w =
      objective c.oracle L X Y w ∧
    gradient c.oracle L (denseMat c.oracle.num_inputs Xs)
        (denseMat c.oracle.output_dim Ys) w =
      gradient c.oracle L X Y w ∧
    fitRunSparse c opt Xs Ys = fitRun c opt X (.rows Y) := by
  have h1 : denseMat c.oracle.num_inputs Xs = X :=
    denseMat_represents _ _ _ hxl hxw hx
  have h2 : denseMat c.oracle.output_dim Ys = Y :=
    denseMat_represents _ _ _ hyl hyw hy
  rw [fitRunSparse, h1, h2]
  exact ⟨rfl, rfl, rfl⟩

/-- Witness for C6: the sparse pair of `test_sparse_arrays`
(features `[[0,0],[1,1]]`, one-hot targets `[[1,0],[0,1]]`) against
their dense storage. -/
theorem c6_sparse_dense_equivalent_witness :
    objective exCB.oracle (resolveLoss .squared_error)
        (denseMat exCB.oracle.num_inputs exSpX)
        (denseMat exCB.oracle.output_dim exSpY) [0, 0] =
      objective exCB.oracle (resolveLoss .squared_error) exX exYRows [0, 0] ∧
    gradient exCB.oracle (resolveLoss .squared_error)
        (denseMat exCB.oracle.num_inputs exSpX)
        (denseMat exCB.oracle.output_dim exSpY) [0, 0] =
      gradient exCB.oracle (resolveLoss .squared_error) exX exYRows [0, 0] ∧
    fitRunSparse exCB exOpt exSpX exSpY =
      fitRun exCB exOpt exX (.rows exYRows) :=
  c6_sparse_dense_equivalent exCB exOpt (resolveLoss .squared_error)
    [0, 0] exX exYRows exSpX exSpY (by decide) (by decide) (by decide)
    (by decide) (by decide) (by decide)

end NNC
